import Mathlib

/-!
Verification of the measurement core of `iperf.c`, a minimal single-stream
TCP throughput tester.  Doubles are modelled as rationals, the blocking
socket calls as an explicit trace of I/O events, and each loop body as a
step function translated from the C source (`run_server` / `run_client`).
-/

namespace Iperf

/-- Wall-clock time in seconds, as sampled by `now_secs` (modelled as ℚ). -/
abbrev Time := ℚ

/-! ## Rate formatter (`human_rate`, iperf.c lines 92-97) -/

/-- Rounding of `q` to 2 decimal places, returned as the integer `round(100*q)`
with ties going to even, as `printf` `%.2f` renders an exactly representable
binary value. -/
def rnd2 (q : ℚ) : ℤ :=
  let x := q * 100
  let f := ⌊x⌋
  let r := x - f
  if r < 1/2 then f
  else if 1/2 < r then f + 1
  else if f % 2 = 0 then f else f + 1

/-- Two-digit decimal rendering of `m < 100` (fractional part of `%.2f`). -/
def twoDigits (m : ℕ) : String :=
  if m < 10 then "0" ++ toString m else toString m

/-- Fixed-point rendering of a nonnegative rational with 2 decimals (`%.2f`). -/
def fmt2 (q : ℚ) : String :=
  let n := rnd2 q
  toString (n / 100) ++ "." ++ twoDigits (n % 100).toNat

/-- The formatter `human_rate`: given bytes per second, prints megabit and
megabyte rates, two decimals each (iperf.c lines 92-97). -/
def human_rate (bytes_per_sec : ℚ) : String :=
  fmt2 (bytes_per_sec * 8 / 1000000) ++ " Mb/s (" ++ fmt2 (bytes_per_sec / 1000000) ++ " MB/s)"

/-! ## Port parsing (iperf.c lines 101-107 and 241-247) -/

/-- `C` locale `isspace`, the characters `strtoul` skips. -/
def isSpaceC (c : Char) : Bool :=
  decide (c.toNat = 32 ∨ (9 ≤ c.toNat ∧ c.toNat ≤ 13))

/-- Decimal digit test used by `strtoul` in base 10. -/
def isDigitC (c : Char) : Bool :=
  decide (48 ≤ c.toNat ∧ c.toNat ≤ 57)

/-- Numeric value of a decimal digit character. -/
def digitVal (c : Char) : ℕ := c.toNat - 48

/-- Value of a decimal digit string. -/
def natOfDigits (ds : List Char) : ℕ :=
  ds.foldl (fun a c => a * 10 + digitVal c) 0

/-- `ULONG_MAX` on an LP64 platform. -/
def ULONG_MAX : ℕ := 2 ^ 64 - 1

/-- Optional sign consumed by `strtoul` after whitespace. -/
def signSplit : List Char → Bool × List Char
  | [] => (false, [])
  | c :: cs =>
    if c = '-' then (true, cs)
    else if c = '+' then (false, cs)
    else (false, c :: cs)

/-- Model of `strtoul(s, &endp, 10)`: returns the converted value and the
remainder of the string starting at `endp`.  Skips leading whitespace and an
optional sign; with no digits the value is 0 and `endp` is the whole input;
overflow clamps to `ULONG_MAX`; a negated value wraps modulo `2^64`. -/
def strtoul10 (s : List Char) : ℕ × List Char :=
  let s1 := s.dropWhile isSpaceC
  let neg := (signSplit s1).1
  let s2 := (signSplit s1).2
  let ds := s2.takeWhile isDigitC
  let rest := s2.dropWhile isDigitC
  if ds = [] then (0, s)
  else if natOfDigits ds > ULONG_MAX then (ULONG_MAX, rest)
  else if neg then ((2 ^ 64 - natOfDigits ds % 2 ^ 64) % 2 ^ 64, rest)
  else (natOfDigits ds, rest)

/-- Result of the port-argument check shared by `run_server` and `run_client`:
either a diagnostic plus the function's return value 1, or the parsed port. -/
inductive ParseOutcome
  | fail (diag : List Char) (exitCode : ℕ)
  | okPort (p : ℕ)
deriving DecidableEq, Repr

/-- The port validation at the top of `run_server` (lines 101-107) and
`run_client` (lines 241-247): `strtoul` base 10, rejecting an empty string,
trailing non-digits, 0, and values above 65535, with a `bad port` diagnostic
and return value 1. -/
def portCheck (s : List Char) : ParseOutcome :=
  if s = [] ∨ (strtoul10 s).2 ≠ [] ∨ (strtoul10 s).1 = 0 ∨ (strtoul10 s).1 > 65535 then
    .fail ("bad port: ".data ++ s ++ "\n".data) 1
  else .okPort (strtoul10 s).1

/-! ## Error classification (iperf.c lines 202-212 and 322-332) -/

/-- Compile-time platform selecting one branch of the `#ifdef _WIN32` error
handling. -/
inductive Platform
  | windows
  | posix
deriving DecidableEq, Repr

/-- Classification of the error code observed after a failed `recv`/`send`:
interruption by signal, would-block, or anything else. -/
inductive ErrClass
  | eintr
  | ewouldblock
  | other
deriving DecidableEq, Repr

/-- What the loop body does with a failed I/O call. -/
inductive ErrAction
  | retryNow
  | sleepRetry (ms : ℕ)
  | fatal
deriving DecidableEq, Repr

/-- The error dispatch in both loops: on Windows `WSAEINTR` retries at once and
`WSAEWOULDBLOCK` sleeps 1 ms then retries; on POSIX only `EINTR` retries;
every other error falls through to `perror` and `break`. -/
def classifyErr : Platform → ErrClass → ErrAction
  | _, .eintr => .retryNow
  | .windows, .ewouldblock => .sleepRetry 1
  | .windows, .other => .fatal
  | .posix, .ewouldblock => .fatal
  | .posix, .other => .fatal

/-! ## Measurement loop state and reports -/

/-- The measurement state of either loop: `total` and `interval` byte counters
and `last`, the time of the previous report boundary. -/
structure LoopState where
  total : ℕ
  interval : ℕ
  last : Time
deriving DecidableEq, Repr

/-- A line emitted by the loop: an interval report with its two offsets from
`t0`, its byte count and the rate handed to `human_rate`; a `perror`
diagnostic; or the final TOTAL line with its duration and rate. -/
inductive Report
  | interval (startOff endOff : ℚ) (bytes : ℕ) (rate : ℚ)
  | ioErr (op : List Char)
  | totalLine (bytes : ℕ) (dt : ℚ) (rate : ℚ)
deriving DecidableEq, Repr

/-- Sum of the byte counts of the interval reports in a list. -/
def sumRep : List Report → ℕ
  | [] => 0
  | .interval _ _ k _ :: rs => k + sumRep rs
  | .ioErr _ :: rs => sumRep rs
  | .totalLine _ _ _ :: rs => sumRep rs

/-- The once-per-second reporter shared by both loops (lines 214-222 and
334-342): if at least 1 s has passed since `last`, print the interval and its
rate, zero the interval counter and move `last` to `now`. -/
def reportCheck (t0 : Time) (st : LoopState) (now : Time) : LoopState × List Report :=
  if 1 ≤ now - st.last then
    (⟨st.total, 0, now⟩,
      [Report.interval (st.last - t0) (now - t0) st.interval
        ((st.interval : ℚ) / (now - st.last))])
  else (st, [])

/-- The duration used for the TOTAL line (lines 225-226 and 354-355):
`t1 - t0` when the clock advanced, `1e-6` otherwise. -/
def dtOf (t0 t1 : Time) : ℚ :=
  if t1 > t0 then t1 - t0 else 1/1000000

/-! ## Server receive loop (iperf.c lines 191-233) -/

/-- One observed `recv` call: the return value `n`, the errno class when
`n < 0`, and the clock sample taken after a successful receive. -/
structure RecvEvent where
  n : ℤ
  e : ErrClass
  tnow : Time
deriving DecidableEq, Repr

/-- One iteration of the server receive loop: count positive returns and run
the reporter; `n = 0` is EOF and exits; errors go through `classifyErr`.
The Bool is whether the loop continues. -/
def serverStep (p : Platform) (t0 : Time) (st : LoopState) (ev : RecvEvent) :
    LoopState × List Report × Bool :=
  if 0 < ev.n then
    let st1 : LoopState := ⟨st.total + ev.n.toNat, st.interval + ev.n.toNat, st.last⟩
    ((reportCheck t0 st1 ev.tnow).1, (reportCheck t0 st1 ev.tnow).2, true)
  else if ev.n = 0 then (st, [], false)
  else
    match classifyErr p ev.e with
    | .retryNow => (st, [], true)
    | .sleepRetry _ => (st, [], true)
    | .fatal => (st, [.ioErr "recv".data], false)

/-- The server receive loop over a trace of `recv` results. -/
def serverLoop (p : Platform) (t0 : Time) : LoopState → List RecvEvent → LoopState × List Report
  | st, [] => (st, [])
  | st, ev :: evs =>
    if (serverStep p t0 st ev).2.2 then
      ((serverLoop p t0 (serverStep p t0 st ev).1 evs).1,
        (serverStep p t0 st ev).2.1 ++ (serverLoop p t0 (serverStep p t0 st ev).1 evs).2)
    else ((serverStep p t0 st ev).1, (serverStep p t0 st ev).2.1)

/-- `run_server` from the loop entry on: runs the loop from zeroed counters,
samples `t1`, prints the TOTAL line and returns 0 (lines 191-233). -/
def runServer (p : Platform) (t0 : Time) (evs : List RecvEvent) (t1 : Time) :
    List Report × ℕ :=
  let r := serverLoop p t0 ⟨0, 0, t0⟩ evs
  (r.2 ++ [.totalLine r.1.total (dtOf t0 t1) ((r.1.total : ℚ) / dtOf t0 t1)], 0)

/-! ## Client send loop (iperf.c lines 236-363) -/

/-- One client iteration's observations: the clock sampled at the top of the
loop, the `send` return and errno class, and the clock sampled after a
successful send. -/
structure SendEvent where
  tcheck : Time
  n : ℤ
  e : ErrClass
  tnow : Time
deriving DecidableEq, Repr

/-- One iteration of the client send loop (lines 311-343): the deadline check
comes first and exits before any send; otherwise the send result is handled
exactly like the server's receive.  The Bool is whether the loop continues and
the final ℕ counts the send calls attempted in this iteration. -/
def clientStep (p : Platform) (t0 tend : Time) (st : LoopState) (ev : SendEvent) :
    LoopState × List Report × Bool × ℕ :=
  if tend ≤ ev.tcheck then (st, [], false, 0)
  else if 0 < ev.n then
    let st1 : LoopState := ⟨st.total + ev.n.toNat, st.interval + ev.n.toNat, st.last⟩
    ((reportCheck t0 st1 ev.tnow).1, (reportCheck t0 st1 ev.tnow).2, true, 1)
  else if ev.n = 0 then (st, [], false, 1)
  else
    match classifyErr p ev.e with
    | .retryNow => (st, [], true, 1)
    | .sleepRetry _ => (st, [], true, 1)
    | .fatal => (st, [.ioErr "send".data], false, 1)

/-- The client send loop over a trace of iterations. -/
def clientLoop (p : Platform) (t0 tend : Time) : LoopState → List SendEvent → LoopState × List Report
  | st, [] => (st, [])
  | st, ev :: evs =>
    if (clientStep p t0 tend st ev).2.2.1 then
      ((clientLoop p t0 tend (clientStep p t0 tend st ev).1 evs).1,
        (clientStep p t0 tend st ev).2.1 ++ (clientLoop p t0 tend (clientStep p t0 tend st ev).1 evs).2)
    else ((clientStep p t0 tend st ev).1, (clientStep p t0 tend st ev).2.1)

/-- Default coercion for the duration argument (line 237). -/
def effSeconds (s : ℤ) : ℤ := if s ≤ 0 then 10 else s

/-- Default coercion for the buffer-size argument (line 238). -/
def effBufKb (b : ℤ) : ℤ := if b ≤ 0 then 16 else b

/-- `run_client` from the defaulting of its arguments on: coerces defaults,
echoes them in the banner, runs the send loop until `t0 + seconds`, prints the
TOTAL line and returns 0 (lines 236-363).  The first component is the
banner's `(seconds, buf_kb)` pair. -/
def runClient (p : Platform) (seconds buf_kb : ℤ) (t0 : Time) (evs : List SendEvent)
    (t1 : Time) : (ℤ × ℤ) × List Report × ℕ :=
  let secs := effSeconds seconds
  let bkb := effBufKb buf_kb
  let tend := t0 + (secs : ℚ)
  let r := clientLoop p t0 tend ⟨0, 0, t0⟩ evs
  ((secs, bkb),
    r.2 ++ [.totalLine r.1.total (dtOf t0 t1) ((r.1.total : ℚ) / dtOf t0 t1)], 0)

/-! ## Formatter evaluation lemmas -/

lemma rnd2_eval (q : ℚ) (f : ℤ) (hf : ⌊q * 100⌋ = f) :
    rnd2 q = if q * 100 - f < 1/2 then f
      else if 1/2 < q * 100 - f then f + 1
      else if f % 2 = 0 then f else f + 1 := by
  simp only [rnd2, hf]

lemma fmt2_eval (q : ℚ) (n : ℤ) (h : rnd2 q = n) :
    fmt2 q = toString (n / 100) ++ "." ++ twoDigits (n % 100).toNat := by
  simp only [fmt2, h]

lemma rnd2_zero : rnd2 0 = 0 := by
  rw [rnd2_eval 0 0 (by norm_num)]
  norm_num

lemma rnd2_one : rnd2 1 = 100 := by
  rw [rnd2_eval 1 100 (by norm_num)]
  norm_num

lemma rnd2_eight : rnd2 8 = 800 := by
  rw [rnd2_eval 8 800 (by norm_num)]
  norm_num

lemma rnd2_eighth : rnd2 (1/8) = 12 := by
  rw [rnd2_eval (1/8) 12 (by norm_num)]
  norm_num

/-- Claim C5: the rate formatter is a pure function of bytes_per_second computing
mbps = bytes_per_second × 8 / 10⁶ and MBps = bytes_per_second / 10⁶, rendered with
two decimal places each, a space before the parenthesis and no trailing newline;
in particular it maps 0 to "0.00 Mb/s (0.00 MB/s)", 125000 to
"1.00 Mb/s (0.12 MB/s)" and 1000000 to "8.00 Mb/s (1.00 MB/s)". -/
theorem C5_format_rate :
    human_rate 0 = "0.00 Mb/s (0.00 MB/s)" ∧
    human_rate 125000 = "1.00 Mb/s (0.12 MB/s)" ∧
    human_rate 1000000 = "8.00 Mb/s (1.00 MB/s)" ∧
    ∀ q : ℚ, ∃ pre : String, human_rate q = pre ++ " MB/s)" := by
  refine ⟨?_, ?_, ?_, fun q => ⟨fmt2 (q * 8 / 1000000) ++ " Mb/s (" ++ fmt2 (q / 1000000), rfl⟩⟩
  · have e1 : (0 : ℚ) * 8 / 1000000 = 0 := by norm_num
    have e2 : (0 : ℚ) / 1000000 = 0 := by norm_num
    simp only [human_rate]
    rw [e1, e2, fmt2_eval 0 0 rnd2_zero]
    decide
  · have e1 : (125000 : ℚ) * 8 / 1000000 = 1 := by norm_num
    have e2 : (125000 : ℚ) / 1000000 = 1/8 := by norm_num
    simp only [human_rate]
    rw [e1, e2, fmt2_eval 1 100 rnd2_one, fmt2_eval (1/8) 12 rnd2_eighth]
    decide
  · have e1 : (1000000 : ℚ) * 8 / 1000000 = 8 := by norm_num
    have e2 : (1000000 : ℚ) / 1000000 = 1 := by norm_num
    simp only [human_rate]
    rw [e1, e2, fmt2_eval 8 800 rnd2_eight, fmt2_eval 1 100 rnd2_one]
    decide

/-- Claim C9: non-positive seconds defaults to 10, non-positive buf_kb defaults to
16, positive values are kept, and running the client with seconds = 0, buf_kb = -1
behaves exactly as with seconds = 10, buf_kb = 16. -/
theorem C9_client_defaults :
    (∀ s : ℤ, s ≤ 0 → effSeconds s = 10) ∧
    (∀ s : ℤ, 0 < s → effSeconds s = s) ∧
    (∀ b : ℤ, b ≤ 0 → effBufKb b = 16) ∧
    (∀ b : ℤ, 0 < b → effBufKb b = b) ∧
    (∀ (p : Platform) (t0 : Time) (evs : List SendEvent) (t1 : Time),
      runClient p 0 (-1) t0 evs t1 = runClient p 10 16 t0 evs t1) := by
  refine ⟨?_, ?_, ?_, ?_, ?_⟩
  · intro s hs
    simp [effSeconds, hs]
  · intro s hs
    simp [effSeconds, not_le.mpr hs]
  · intro b hb
    simp [effBufKb, hb]
  · intro b hb
    simp [effBufKb, not_le.mpr hb]
  · intro p t0 evs t1
    norm_num [runClient, effSeconds, effBufKb]

/-- Closed instance of C9: the defaulting rules applied at seconds 0 and 3 and at
buf_kb -1 and 2. -/
theorem C9_client_defaults_witness :
    effSeconds 0 = 10 ∧ effSeconds 3 = 3 ∧ effBufKb (-1) = 16 ∧ effBufKb 2 = 2 :=
  ⟨C9_client_defaults.1 0 (by decide), C9_client_defaults.2.1 3 (by decide),
   C9_client_defaults.2.2.1 (-1) (by decide), C9_client_defaults.2.2.2.1 2 (by decide)⟩

/-- Counterexample to claim C2 as stated: at t0 = 0, t1 = 10⁻⁷ the clock advanced
by a positive amount smaller than 10⁻⁶, yet the code's duration is t1 - t0 and not
the claimed 10⁻⁶. -/
theorem C2_dt_counterexample :
    (0 : ℚ) < (1/10000000 : ℚ) - 0 ∧ ((1/10000000 : ℚ) - 0) < 1/1000000 ∧
    dtOf 0 (1/10000000) = 1/10000000 ∧ dtOf 0 (1/10000000) ≠ 1/1000000 := by
  have h : dtOf 0 (1/10000000) = 1/10000000 := by
    have hp : (0 : ℚ) < 1/10000000 := by norm_num
    simp only [dtOf, if_pos hp]
    norm_num
  refine ⟨by norm_num, by norm_num, h, ?_⟩
  rw [h]
  norm_num

/-- Claim C2 (amended): after the loop both variants compute
dt = t1 - start_time when t1 > start_time and dt = 10⁻⁶ otherwise, so dt is always
positive and agrees with max(t1 - start_time, 10⁻⁶) whenever
t1 - start_time ≥ 10⁻⁶ or t1 ≤ start_time (but not on 0 < t1 - start_time < 10⁻⁶);
the TOTAL line of each variant prints this dt and the rate total_bytes / dt. -/
theorem C2_dt_formula :
    ∀ t0 t1 : Time,
      0 < dtOf t0 t1 ∧
      (t0 < t1 → dtOf t0 t1 = t1 - t0) ∧
      (t1 ≤ t0 → dtOf t0 t1 = 1/1000000) ∧
      (1/1000000 ≤ t1 - t0 → dtOf t0 t1 = max (t1 - t0) (1/1000000)) ∧
      (∀ (p : Platform) (evs : List RecvEvent),
        (runServer p t0 evs t1).1.getLast? =
          some (.totalLine (serverLoop p t0 ⟨0, 0, t0⟩ evs).1.total (dtOf t0 t1)
            (((serverLoop p t0 ⟨0, 0, t0⟩ evs).1.total : ℚ) / dtOf t0 t1))) ∧
      (∀ (p : Platform) (seconds buf_kb : ℤ) (evs : List SendEvent),
        (runClient p seconds buf_kb t0 evs t1).2.1.getLast? =
          some (.totalLine
            (clientLoop p t0 (t0 + (effSeconds seconds : ℚ)) ⟨0, 0, t0⟩ evs).1.total
            (dtOf t0 t1)
            (((clientLoop p t0 (t0 + (effSeconds seconds : ℚ)) ⟨0, 0, t0⟩ evs).1.total : ℚ) /
              dtOf t0 t1))) := by
  intro t0 t1
  refine ⟨?_, ?_, ?_, ?_, ?_, ?_⟩
  · simp only [dtOf]
    split_ifs with h
    · linarith
    · norm_num
  · intro h
    simp only [dtOf, if_pos h]
  · intro h
    simp only [dtOf, if_neg (not_lt.mpr h)]
  · intro h
    have h2 : t0 < t1 := by
      have : (0 : ℚ) < t1 - t0 := lt_of_lt_of_le (by norm_num) h
      linarith
    simp only [dtOf, if_pos h2]
    rw [max_eq_left h]
  · intro p evs
    simp [runServer]
  · intro p seconds buf_kb evs
    simp [runClient]

/-- Closed instance of C2 (amended): the dt formula evaluated on both sides of the
branch, at t0 = 0, t1 = 2 and at t0 = 3, t1 = 1. -/
theorem C2_dt_formula_witness :
    dtOf 0 2 = 2 - 0 ∧ dtOf 3 1 = 1/1000000 ∧ dtOf 0 2 = max (2 - 0) (1/1000000) :=
  ⟨(C2_dt_formula 0 2).2.1 (by norm_num), (C2_dt_formula 3 1).2.2.1 (by norm_num),
   (C2_dt_formula 0 2).2.2.2.1 (by norm_num)⟩

/-! ## Step-level lemmas for the error paths -/

lemma serverStep_err (p : Platform) (t0 : Time) (st : LoopState) (ev : RecvEvent)
    (hn : ev.n < 0) :
    serverStep p t0 st ev =
      match classifyErr p ev.e with
      | .retryNow => (st, [], true)
      | .sleepRetry _ => (st, [], true)
      | .fatal => (st, [.ioErr "recv".data], false) := by
  simp only [serverStep, if_neg (by omega : ¬ 0 < ev.n), if_neg (by omega : ¬ ev.n = 0)]

lemma serverStep_retryNow (p : Platform) (t0 : Time) (st : LoopState) (ev : RecvEvent)
    (hn : ev.n < 0) (hc : classifyErr p ev.e = .retryNow) :
    serverStep p t0 st ev = (st, [], true) := by
  rw [serverStep_err p t0 st ev hn, hc]

lemma serverStep_sleepRetry (p : Platform) (t0 : Time) (st : LoopState) (ev : RecvEvent)
    (ms : ℕ) (hn : ev.n < 0) (hc : classifyErr p ev.e = .sleepRetry ms) :
    serverStep p t0 st ev = (st, [], true) := by
  rw [serverStep_err p t0 st ev hn, hc]

lemma serverStep_fatal (p : Platform) (t0 : Time) (st : LoopState) (ev : RecvEvent)
    (hn : ev.n < 0) (hc : classifyErr p ev.e = .fatal) :
    serverStep p t0 st ev = (st, [.ioErr "recv".data], false) := by
  rw [serverStep_err p t0 st ev hn, hc]

lemma clientStep_deadline (p : Platform) (t0 tend : Time) (st : LoopState) (ev : SendEvent)
    (h : tend ≤ ev.tcheck) :
    clientStep p t0 tend st ev = (st, [], false, 0) := by
  simp only [clientStep, if_pos h]

lemma clientStep_err (p : Platform) (t0 tend : Time) (st : LoopState) (ev : SendEvent)
    (ht : ev.tcheck < tend) (hn : ev.n < 0) :
    clientStep p t0 tend st ev =
      match classifyErr p ev.e with
      | .retryNow => (st, [], true, 1)
      | .sleepRetry _ => (st, [], true, 1)
      | .fatal => (st, [.ioErr "send".data], false, 1) := by
  simp only [clientStep, if_neg (not_le.mpr ht), if_neg (by omega : ¬ 0 < ev.n),
    if_neg (by omega : ¬ ev.n = 0)]

lemma clientStep_retryNow (p : Platform) (t0 tend : Time) (st : LoopState) (ev : SendEvent)
    (ht : ev.tcheck < tend) (hn : ev.n < 0) (hc : classifyErr p ev.e = .retryNow) :
    clientStep p t0 tend st ev = (st, [], true, 1) := by
  rw [clientStep_err p t0 tend st ev ht hn, hc]

lemma clientStep_sleepRetry (p : Platform) (t0 tend : Time) (st : LoopState) (ev : SendEvent)
    (ms : ℕ) (ht : ev.tcheck < tend) (hn : ev.n < 0) (hc : classifyErr p ev.e = .sleepRetry ms) :
    clientStep p t0 tend st ev = (st, [], true, 1) := by
  rw [clientStep_err p t0 tend st ev ht hn, hc]

lemma clientStep_fatal (p : Platform) (t0 tend : Time) (st : LoopState) (ev : SendEvent)
    (ht : ev.tcheck < tend) (hn : ev.n < 0) (hc : classifyErr p ev.e = .fatal) :
    clientStep p t0 tend st ev = (st, [.ioErr "send".data], false, 1) := by
  rw [clientStep_err p t0 tend st ev ht hn, hc]

lemma clientStep_sendsOne (p : Platform) (t0 tend : Time) (st : LoopState) (ev : SendEvent)
    (ht : ev.tcheck < tend) :
    (clientStep p t0 tend st ev).2.2.2 = 1 := by
  simp only [clientStep, if_neg (not_le.mpr ht)]
  by_cases h1 : 0 < ev.n
  · simp [if_pos h1]
  · by_cases h2 : ev.n = 0
    · simp [if_neg h1, if_pos h2]
    · rcases hc : classifyErr p ev.e with _ | ms | _ <;> simp [if_neg h1, if_neg h2, hc]

lemma clientLoop_deadline (p : Platform) (t0 tend : Time) (st : LoopState) (ev : SendEvent)
    (evs : List SendEvent) (h : tend ≤ ev.tcheck) :
    clientLoop p t0 tend st (ev :: evs) = (st, []) := by
  simp [clientLoop, clientStep_deadline p t0 tend st ev h]

/-- Counterexample to claim C3 as stated: on the POSIX build a would-block error is
not retried after a 1 ms sleep; it is treated like any other error and ends the
loop. -/
theorem C3_retry_counterexample :
    classifyErr .posix .ewouldblock = .fatal ∧
    classifyErr .posix .ewouldblock ≠ .sleepRetry 1 ∧
    serverStep .posix 0 ⟨0, 0, 0⟩ ⟨-1, .ewouldblock, 0⟩ = (⟨0, 0, 0⟩, [.ioErr "recv".data], false) := by
  refine ⟨rfl, by decide, ?_⟩
  exact serverStep_fatal _ _ _ _ (by decide) rfl

/-- Claim C3 (amended): in both loops an interruption-by-signal error retries
immediately on either platform; on the Windows build, the only platform whose
error handling has a would-block case, a would-block error sleeps 1 ms and
retries; on the POSIX build a would-block error ends the loop like any other
error; no error besides these two classes is ever retried. -/
theorem C3_retry_policy :
    (∀ p : Platform, classifyErr p .eintr = .retryNow) ∧
    classifyErr .windows .ewouldblock = .sleepRetry 1 ∧
    (∀ (p : Platform) (e : ErrClass), e ≠ .eintr → e ≠ .ewouldblock → classifyErr p e = .fatal) ∧
    classifyErr .posix .ewouldblock = .fatal ∧
    (∀ (p : Platform) (t0 : Time) (st : LoopState) (ev : RecvEvent), ev.n < 0 →
      (classifyErr p ev.e = .retryNow → serverStep p t0 st ev = (st, [], true)) ∧
      (classifyErr p ev.e = .sleepRetry 1 → serverStep p t0 st ev = (st, [], true)) ∧
      (classifyErr p ev.e = .fatal → serverStep p t0 st ev = (st, [.ioErr "recv".data], false))) ∧
    (∀ (p : Platform) (t0 tend : Time) (st : LoopState) (ev : SendEvent),
      ev.tcheck < tend → ev.n < 0 →
      (classifyErr p ev.e = .retryNow → clientStep p t0 tend st ev = (st, [], true, 1)) ∧
      (classifyErr p ev.e = .sleepRetry 1 → clientStep p t0 tend st ev = (st, [], true, 1)) ∧
      (classifyErr p ev.e = .fatal →
        clientStep p t0 tend st ev = (st, [.ioErr "send".data], false, 1))) := by
  refine ⟨?_, rfl, ?_, rfl, ?_, ?_⟩
  · intro p
    cases p <;> rfl
  · intro p e h1 h2
    cases e with
    | eintr => exact absurd rfl h1
    | ewouldblock => exact absurd rfl h2
    | other => cases p <;> rfl
  · intro p t0 st ev hn
    exact ⟨serverStep_retryNow p t0 st ev hn,
      serverStep_sleepRetry p t0 st ev 1 hn,
      serverStep_fatal p t0 st ev hn⟩
  · intro p t0 tend st ev ht hn
    exact ⟨clientStep_retryNow p t0 tend st ev ht hn,
      clientStep_sleepRetry p t0 tend st ev 1 ht hn,
      clientStep_fatal p t0 tend st ev ht hn⟩

/-- Closed instance of C3 (amended): the three retry verdicts exercised at
concrete failed calls. -/
theorem C3_retry_policy_witness :
    serverStep .windows 0 ⟨0, 0, 0⟩ ⟨-1, .eintr, 0⟩ = (⟨0, 0, 0⟩, [], true) ∧
    clientStep .windows 0 1 ⟨0, 0, 0⟩ ⟨0, -1, .ewouldblock, 0⟩ = (⟨0, 0, 0⟩, [], true, 1) ∧
    classifyErr .posix .other = .fatal :=
  ⟨(C3_retry_policy.2.2.2.2.1 .windows 0 ⟨0, 0, 0⟩ ⟨-1, .eintr, 0⟩ (by decide)).1
      (C3_retry_policy.1 .windows),
   (C3_retry_policy.2.2.2.2.2 .windows 0 1 ⟨0, 0, 0⟩ ⟨0, -1, .ewouldblock, 0⟩ (by simp)
      (by decide)).2.1 C3_retry_policy.2.1,
   C3_retry_policy.2.2.1 .posix .other (by decide) (by decide)⟩

/-- Claim C8: the client samples the clock at the top of every iteration and, once
it reads the deadline start_time + seconds or later, exits without attempting the
send of that iteration (state, reports and the rest of the trace untouched);
whenever the deadline has not been reached the iteration attempts exactly one
send, so termination is never decided by a byte count. -/
theorem C8_deadline_check :
    (∀ (p : Platform) (t0 tend : Time) (st : LoopState) (ev : SendEvent),
      tend ≤ ev.tcheck → clientStep p t0 tend st ev = (st, [], false, 0)) ∧
    (∀ (p : Platform) (t0 tend : Time) (st : LoopState) (ev : SendEvent),
      ev.tcheck < tend → (clientStep p t0 tend st ev).2.2.2 = 1) ∧
    (∀ (p : Platform) (t0 tend : Time) (st : LoopState) (ev : SendEvent)
      (evs : List SendEvent),
      tend ≤ ev.tcheck → clientLoop p t0 tend st (ev :: evs) = (st, [])) :=
  ⟨fun p t0 tend st ev h => clientStep_deadline p t0 tend st ev h,
   fun p t0 tend st ev h => clientStep_sendsOne p t0 tend st ev h,
   fun p t0 tend st ev evs h => clientLoop_deadline p t0 tend st ev evs h⟩

/-- Closed instance of C8: an iteration whose top-of-loop clock reads the deadline
exits with no send, and one below the deadline attempts exactly one send. -/
theorem C8_deadline_check_witness :
    clientStep .posix 0 5 ⟨0, 0, 0⟩ ⟨5, 1, .other, 0⟩ = (⟨0, 0, 0⟩, [], false, 0) ∧
    (clientStep .posix 0 5 ⟨0, 0, 0⟩ ⟨0, 1, .other, 0⟩).2.2.2 = 1 ∧
    clientLoop .posix 0 5 ⟨0, 0, 0⟩ [⟨5, 1, .other, 0⟩] = (⟨0, 0, 0⟩, []) :=
  ⟨C8_deadline_check.1 .posix 0 5 ⟨0, 0, 0⟩ ⟨5, 1, .other, 0⟩ (by simp),
   C8_deadline_check.2.1 .posix 0 5 ⟨0, 0, 0⟩ ⟨0, 1, .other, 0⟩ (by simp),
   C8_deadline_check.2.2 .posix 0 5 ⟨0, 0, 0⟩ ⟨5, 1, .other, 0⟩ [] (by simp)⟩

/-! ## Port-parsing lemmas -/

lemma digit_facts (c : Char) (hc : isDigitC c = true) :
    isSpaceC c = false ∧ c ≠ '-' ∧ c ≠ '+' := by
  have h48 : 48 ≤ c.toNat ∧ c.toNat ≤ 57 := by simpa [isDigitC] using hc
  refine ⟨?_, ?_, ?_⟩
  · simp only [isSpaceC, decide_eq_false_iff_not]
    omega
  · intro h
    rw [h] at hc
    exact absurd hc (by decide)
  · intro h
    rw [h] at hc
    exact absurd hc (by decide)

lemma takeWhile_digits (ds : List Char) (h : ∀ c ∈ ds, isDigitC c = true) :
    ds.takeWhile isDigitC = ds ∧ ds.dropWhile isDigitC = [] := by
  induction ds with
  | nil => simp
  | cons c cs ih =>
    have hc : isDigitC c = true := h c (List.mem_cons_self c cs)
    have ih2 := ih (fun x hx => h x (List.mem_cons_of_mem c hx))
    simp [List.takeWhile_cons, List.dropWhile_cons, hc, ih2.1, ih2.2]

lemma strtoul10_digits (ds : List Char) (hne : ds ≠ [])
    (h : ∀ c ∈ ds, isDigitC c = true) (hle : natOfDigits ds ≤ 65535) :
    strtoul10 ds = (natOfDigits ds, []) := by
  obtain ⟨c, cs, rfl⟩ := List.exists_cons_of_ne_nil hne
  have hc : isDigitC c = true := h c (List.mem_cons_self c cs)
  obtain ⟨hsp, hminus, hplus⟩ := digit_facts c hc
  have htw := takeWhile_digits (c :: cs) h
  have e1 : (c :: cs).dropWhile isSpaceC = c :: cs := by
    simp [List.dropWhile_cons, hsp]
  have e2 : signSplit (c :: cs) = (false, c :: cs) := by
    simp [signSplit, hminus, hplus]
  have h2 : ¬ natOfDigits (c :: cs) > ULONG_MAX := by
    have h3 : (65535 : ℕ) ≤ ULONG_MAX := by norm_num [ULONG_MAX]
    omega
  simp only [strtoul10, e1, e2]
  simp only [htw.1, htw.2]
  simp [h2]

lemma portCheck_digits (ds : List Char) (hne : ds ≠ [])
    (h : ∀ c ∈ ds, isDigitC c = true)
    (h1 : 1 ≤ natOfDigits ds) (h2 : natOfDigits ds ≤ 65535) :
    portCheck ds = .okPort (natOfDigits ds) := by
  have hs := strtoul10_digits ds hne h h2
  have hcond : ¬ (ds = [] ∨ ([] : List Char) ≠ [] ∨ natOfDigits ds = 0 ∨
      natOfDigits ds > 65535) := by
    push_neg
    exact ⟨hne, rfl, by omega, by omega⟩
  simp only [portCheck, hs, if_neg hcond]

/-- Claim C6: the port strings "0", "65536", "abc" and the empty string all fail
the shared port validation with the diagnostic "bad port: ..." and return value 1,
in both server and client mode (which run the identical check), while every string
of decimal digits denoting an integer in 1..65535 is accepted. -/
theorem C6_port_parse :
    portCheck "0".data = .fail "bad port: 0\n".data 1 ∧
    portCheck "65536".data = .fail "bad port: 65536\n".data 1 ∧
    portCheck "abc".data = .fail "bad port: abc\n".data 1 ∧
    portCheck "".data = .fail "bad port: \n".data 1 ∧
    ∀ ds : List Char, ds ≠ [] → (∀ c ∈ ds, isDigitC c = true) →
      1 ≤ natOfDigits ds → natOfDigits ds ≤ 65535 →
      portCheck ds = .okPort (natOfDigits ds) :=
  ⟨by decide, by decide, by decide, by decide,
   fun ds hne h h1 h2 => portCheck_digits ds hne h h1 h2⟩

/-- Closed instance of C6: the digit string "80" is accepted as port 80. -/
theorem C6_port_parse_witness :
    portCheck "80".data = .okPort (natOfDigits "80".data) :=
  C6_port_parse.2.2.2.2 "80".data (by decide) (by decide) (by decide) (by decide)

/-! ## Loop accounting lemmas -/

lemma sumRep_append (a b : List Report) : sumRep (a ++ b) = sumRep a + sumRep b := by
  induction a with
  | nil => simp [sumRep]
  | cons r rs ih => cases r <;> simp [sumRep, ih, Nat.add_assoc]

lemma dtOf_pos (t0 t1 : Time) : 0 < dtOf t0 t1 := by
  simp only [dtOf]
  split_ifs with h
  · linarith
  · norm_num

lemma serverStep_sum (p : Platform) (t0 : Time) (st : LoopState) (ev : RecvEvent) :
    (serverStep p t0 st ev).1.total + st.interval =
      st.total + sumRep (serverStep p t0 st ev).2.1 + (serverStep p t0 st ev).1.interval := by
  by_cases h1 : 0 < ev.n
  · by_cases h2 : 1 ≤ ev.tnow - st.last
    · simp [serverStep, reportCheck, h1, h2, sumRep]
      omega
    · simp [serverStep, reportCheck, h1, h2, sumRep]
      omega
  · by_cases h2 : ev.n = 0
    · simp [serverStep, h1, h2, sumRep]
    · rw [serverStep_err p t0 st ev (by omega)]
      rcases classifyErr p ev.e with _ | ms | _ <;> simp [sumRep]

lemma serverLoop_sum (p : Platform) (t0 : Time) :
    ∀ (evs : List RecvEvent) (st : LoopState),
      (serverLoop p t0 st evs).1.total + st.interval =
        st.total + sumRep (serverLoop p t0 st evs).2 + (serverLoop p t0 st evs).1.interval := by
  intro evs
  induction evs with
  | nil =>
    intro st
    simp [serverLoop, sumRep]
  | cons ev evs ih =>
    intro st
    have hstep := serverStep_sum p t0 st ev
    by_cases hc : (serverStep p t0 st ev).2.2
    · have hrec := ih (serverStep p t0 st ev).1
      simp only [serverLoop, if_pos hc, sumRep_append]
      omega
    · simp only [serverLoop, if_neg hc]
      omega

lemma clientStep_sum (p : Platform) (t0 tend : Time) (st : LoopState) (ev : SendEvent) :
    (clientStep p t0 tend st ev).1.total + st.interval =
      st.total + sumRep (clientStep p t0 tend st ev).2.1 +
        (clientStep p t0 tend st ev).1.interval := by
  by_cases ht : tend ≤ ev.tcheck
  · simp [clientStep_deadline p t0 tend st ev ht, sumRep]
  · by_cases h1 : 0 < ev.n
    · by_cases h2 : 1 ≤ ev.tnow - st.last
      · simp [clientStep, reportCheck, ht, h1, h2, sumRep]
        omega
      · simp [clientStep, reportCheck, ht, h1, h2, sumRep]
        omega
    · by_cases h2 : ev.n = 0
      · simp [clientStep, ht, h1, h2, sumRep]
      · rw [clientStep_err p t0 tend st ev (not_le.mp ht) (by omega)]
        rcases classifyErr p ev.e with _ | ms | _ <;> simp [sumRep]

lemma clientLoop_sum (p : Platform) (t0 tend : Time) :
    ∀ (evs : List SendEvent) (st : LoopState),
      (clientLoop p t0 tend st evs).1.total + st.interval =
        st.total + sumRep (clientLoop p t0 tend st evs).2 +
          (clientLoop p t0 tend st evs).1.interval := by
  intro evs
  induction evs with
  | nil =>
    intro st
    simp [clientLoop, sumRep]
  | cons ev evs ih =>
    intro st
    have hstep := clientStep_sum p t0 tend st ev
    by_cases hc : (clientStep p t0 tend st ev).2.2.1
    · have hrec := ih (clientStep p t0 tend st ev).1
      simp only [clientLoop, if_pos hc, sumRep_append]
      omega
    · simp only [clientLoop, if_neg hc]
      omega

/-! ## Interval-report membership lemmas -/

lemma mem_reportCheck (t0 : Time) (st : LoopState) (now : Time) (r : Report)
    (hr : r ∈ (reportCheck t0 st now).2) :
    r = .interval (st.last - t0) (now - t0) st.interval ((st.interval : ℚ) / (now - st.last)) ∧
      1 ≤ now - st.last := by
  by_cases h : 1 ≤ now - st.last
  · simp [reportCheck, h] at hr
    exact ⟨hr, h⟩
  · simp [reportCheck, h] at hr

lemma serverStep_interval_mem (p : Platform) (t0 : Time) (st : LoopState) (ev : RecvEvent)
    (a b : ℚ) (k : ℕ) (r : ℚ)
    (hm : Report.interval a b k r ∈ (serverStep p t0 st ev).2.1) : 1 ≤ b - a := by
  by_cases h1 : 0 < ev.n
  · simp only [serverStep, if_pos h1] at hm
    have h := mem_reportCheck t0 ⟨st.total + ev.n.toNat, st.interval + ev.n.toNat, st.last⟩
      ev.tnow _ hm
    obtain ⟨heq, hge⟩ := h
    injection heq with ha hb hk hr2
    subst ha
    subst hb
    simp only at hge
    linarith
  · by_cases h2 : ev.n = 0
    · simp [serverStep, h1, h2] at hm
    · rw [serverStep_err p t0 st ev (by omega)] at hm
      rcases hq : classifyErr p ev.e with _ | ms | _ <;> rw [hq] at hm <;> simp at hm

lemma serverLoop_interval_mem (p : Platform) (t0 : Time) :
    ∀ (evs : List RecvEvent) (st : LoopState) (a b : ℚ) (k : ℕ) (r : ℚ),
      Report.interval a b k r ∈ (serverLoop p t0 st evs).2 → 1 ≤ b - a := by
  intro evs
  induction evs with
  | nil =>
    intro st a b k r hm
    simp [serverLoop] at hm
  | cons ev evs ih =>
    intro st a b k r hm
    by_cases hc : (serverStep p t0 st ev).2.2
    · simp only [serverLoop, if_pos hc] at hm
      rcases List.mem_append.mp hm with h | h
      · exact serverStep_interval_mem p t0 st ev a b k r h
      · exact ih (serverStep p t0 st ev).1 a b k r h
    · simp only [serverLoop, if_neg hc] at hm
      exact serverStep_interval_mem p t0 st ev a b k r hm

lemma clientStep_interval_mem (p : Platform) (t0 tend : Time) (st : LoopState) (ev : SendEvent)
    (a b : ℚ) (k : ℕ) (r : ℚ)
    (hm : Report.interval a b k r ∈ (clientStep p t0 tend st ev).2.1) : 1 ≤ b - a := by
  by_cases ht : tend ≤ ev.tcheck
  · rw [clientStep_deadline p t0 tend st ev ht] at hm
    simp at hm
  · by_cases h1 : 0 < ev.n
    · simp only [clientStep, if_neg ht, if_pos h1] at hm
      have h := mem_reportCheck t0 ⟨st.total + ev.n.toNat, st.interval + ev.n.toNat, st.last⟩
        ev.tnow _ hm
      obtain ⟨heq, hge⟩ := h
      injection heq with ha hb hk hr2
      subst ha
      subst hb
      simp only at hge
      linarith
    · by_cases h2 : ev.n = 0
      · simp [clientStep, ht, h1, h2] at hm
      · rw [clientStep_err p t0 tend st ev (not_le.mp ht) (by omega)] at hm
        rcases hq : classifyErr p ev.e with _ | ms | _ <;> rw [hq] at hm <;> simp at hm

lemma clientLoop_interval_mem (p : Platform) (t0 tend : Time) :
    ∀ (evs : List SendEvent) (st : LoopState) (a b : ℚ) (k : ℕ) (r : ℚ),
      Report.interval a b k r ∈ (clientLoop p t0 tend st evs).2 → 1 ≤ b - a := by
  intro evs
  induction evs with
  | nil =>
    intro st a b k r hm
    simp [clientLoop] at hm
  | cons ev evs ih =>
    intro st a b k r hm
    by_cases hc : (clientStep p t0 tend st ev).2.2.1
    · simp only [clientLoop, if_pos hc] at hm
      rcases List.mem_append.mp hm with h | h
      · exact clientStep_interval_mem p t0 tend st ev a b k r h
      · exact ih (clientStep p t0 tend st ev).1 a b k r h
    · simp only [clientLoop, if_neg hc] at hm
      exact clientStep_interval_mem p t0 tend st ev a b k r hm

lemma serverStep_no_total (p : Platform) (t0 : Time) (st : LoopState) (ev : RecvEvent)
    (b : ℕ) (dt r : ℚ) : Report.totalLine b dt r ∉ (serverStep p t0 st ev).2.1 := by
  intro hm
  by_cases h1 : 0 < ev.n
  · simp only [serverStep, if_pos h1] at hm
    have h := (mem_reportCheck t0 ⟨st.total + ev.n.toNat, st.interval + ev.n.toNat, st.last⟩
      ev.tnow _ hm).1
    simp at h
  · by_cases h2 : ev.n = 0
    · simp [serverStep, h1, h2] at hm
    · rw [serverStep_err p t0 st ev (by omega)] at hm
      rcases hq : classifyErr p ev.e with _ | ms | _ <;> rw [hq] at hm <;> simp at hm

lemma serverLoop_no_total (p : Platform) (t0 : Time) :
    ∀ (evs : List RecvEvent) (st : LoopState) (b : ℕ) (dt r : ℚ),
      Report.totalLine b dt r ∉ (serverLoop p t0 st evs).2 := by
  intro evs
  induction evs with
  | nil =>
    intro st b dt r hm
    simp [serverLoop] at hm
  | cons ev evs ih =>
    intro st b dt r hm
    by_cases hc : (serverStep p t0 st ev).2.2
    · simp only [serverLoop, if_pos hc] at hm
      rcases List.mem_append.mp hm with h | h
      · exact serverStep_no_total p t0 st ev b dt r h
      · exact ih (serverStep p t0 st ev).1 b dt r h
    · simp only [serverLoop, if_neg hc] at hm
      exact serverStep_no_total p t0 st ev b dt r hm

lemma clientStep_no_total (p : Platform) (t0 tend : Time) (st : LoopState) (ev : SendEvent)
    (b : ℕ) (dt r : ℚ) : Report.totalLine b dt r ∉ (clientStep p t0 tend st ev).2.1 := by
  intro hm
  by_cases ht : tend ≤ ev.tcheck
  · rw [clientStep_deadline p t0 tend st ev ht] at hm
    simp at hm
  · by_cases h1 : 0 < ev.n
    · simp only [clientStep, if_neg ht, if_pos h1] at hm
      have h := (mem_reportCheck t0 ⟨st.total + ev.n.toNat, st.interval + ev.n.toNat, st.last⟩
        ev.tnow _ hm).1
      simp at h
    · by_cases h2 : ev.n = 0
      · simp [clientStep, ht, h1, h2] at hm
      · rw [clientStep_err p t0 tend st ev (not_le.mp ht) (by omega)] at hm
        rcases hq : classifyErr p ev.e with _ | ms | _ <;> rw [hq] at hm <;> simp at hm

lemma clientLoop_no_total (p : Platform) (t0 tend : Time) :
    ∀ (evs : List SendEvent) (st : LoopState) (b : ℕ) (dt r : ℚ),
      Report.totalLine b dt r ∉ (clientLoop p t0 tend st evs).2 := by
  intro evs
  induction evs with
  | nil =>
    intro st b dt r hm
    simp [clientLoop] at hm
  | cons ev evs ih =>
    intro st b dt r hm
    by_cases hc : (clientStep p t0 tend st ev).2.2.1
    · simp only [clientLoop, if_pos hc] at hm
      rcases List.mem_append.mp hm with h | h
      · exact clientStep_no_total p t0 tend st ev b dt r h
      · exact ih (clientStep p t0 tend st ev).1 b dt r h
    · simp only [clientLoop, if_neg hc] at hm
      exact clientStep_no_total p t0 tend st ev b dt r hm

lemma serverStep_interval_iff (p : Platform) (t0 : Time) (st : LoopState) (ev : RecvEvent) :
    (∃ a b k r, Report.interval a b k r ∈ (serverStep p t0 st ev).2.1) ↔
      (0 < ev.n ∧ 1 ≤ ev.tnow - st.last) := by
  constructor
  · rintro ⟨a, b, k, r, hm⟩
    by_cases h1 : 0 < ev.n
    · refine ⟨h1, ?_⟩
      simp only [serverStep, if_pos h1] at hm
      have h := (mem_reportCheck t0 ⟨st.total + ev.n.toNat, st.interval + ev.n.toNat, st.last⟩
        ev.tnow _ hm).2
      simpa using h
    · exfalso
      by_cases h2 : ev.n = 0
      · simp [serverStep, h1, h2] at hm
      · rw [serverStep_err p t0 st ev (by omega)] at hm
        rcases hq : classifyErr p ev.e with _ | ms | _ <;> rw [hq] at hm <;> simp at hm
  · rintro ⟨h1, h2⟩
    simp [serverStep, reportCheck, h1, h2]

lemma clientStep_interval_iff (p : Platform) (t0 tend : Time) (st : LoopState) (ev : SendEvent) :
    (∃ a b k r, Report.interval a b k r ∈ (clientStep p t0 tend st ev).2.1) ↔
      (ev.tcheck < tend ∧ 0 < ev.n ∧ 1 ≤ ev.tnow - st.last) := by
  constructor
  · rintro ⟨a, b, k, r, hm⟩
    by_cases ht : tend ≤ ev.tcheck
    · rw [clientStep_deadline p t0 tend st ev ht] at hm
      simp at hm
    · refine ⟨not_le.mp ht, ?_⟩
      by_cases h1 : 0 < ev.n
      · refine ⟨h1, ?_⟩
        simp only [clientStep, if_neg ht, if_pos h1] at hm
        have h := (mem_reportCheck t0 ⟨st.total + ev.n.toNat, st.interval + ev.n.toNat, st.last⟩
          ev.tnow _ hm).2
        simpa using h
      · exfalso
        by_cases h2 : ev.n = 0
        · simp [clientStep, ht, h1, h2] at hm
        · rw [clientStep_err p t0 tend st ev (not_le.mp ht) (by omega)] at hm
          rcases hq : classifyErr p ev.e with _ | ms | _ <;> rw [hq] at hm <;> simp at hm
  · rintro ⟨ht, h1, h2⟩
    simp [clientStep, reportCheck, not_le.mpr ht, h1, h2]

lemma serverLoop_fatal (p : Platform) (t0 : Time) (st : LoopState) (ev : RecvEvent)
    (evs : List RecvEvent) (hn : ev.n < 0) (hc : classifyErr p ev.e = .fatal) :
    serverLoop p t0 st (ev :: evs) = (st, [.ioErr "recv".data]) := by
  simp [serverLoop, serverStep_fatal p t0 st ev hn hc]

lemma clientLoop_fatal (p : Platform) (t0 tend : Time) (st : LoopState) (ev : SendEvent)
    (evs : List SendEvent) (ht : ev.tcheck < tend) (hn : ev.n < 0)
    (hc : classifyErr p ev.e = .fatal) :
    clientLoop p t0 tend st (ev :: evs) = (st, [.ioErr "send".data]) := by
  simp [clientLoop, clientStep_fatal p t0 tend st ev ht hn hc]

/-- Claim C1: in every run of either measurement loop the cumulative byte counter
equals the sum of the byte counts of all interval reports already emitted plus the
bytes accumulated since the last report, and the TOTAL line printed after the loop
carries exactly that cumulative counter. -/
theorem C1_total_accounting :
    (∀ (p : Platform) (t0 t1 : Time) (evs : List RecvEvent),
      (serverLoop p t0 ⟨0, 0, t0⟩ evs).1.total =
        sumRep (serverLoop p t0 ⟨0, 0, t0⟩ evs).2 +
          (serverLoop p t0 ⟨0, 0, t0⟩ evs).1.interval ∧
      (runServer p t0 evs t1).1 =
        (serverLoop p t0 ⟨0, 0, t0⟩ evs).2 ++
          [.totalLine (serverLoop p t0 ⟨0, 0, t0⟩ evs).1.total (dtOf t0 t1)
            (((serverLoop p t0 ⟨0, 0, t0⟩ evs).1.total : ℚ) / dtOf t0 t1)]) ∧
    (∀ (p : Platform) (t0 tend : Time) (evs : List SendEvent),
      (clientLoop p t0 tend ⟨0, 0, t0⟩ evs).1.total =
        sumRep (clientLoop p t0 tend ⟨0, 0, t0⟩ evs).2 +
          (clientLoop p t0 tend ⟨0, 0, t0⟩ evs).1.interval) ∧
    (∀ (p : Platform) (seconds buf_kb : ℤ) (t0 t1 : Time) (evs : List SendEvent),
      (runClient p seconds buf_kb t0 evs t1).2.1 =
        (clientLoop p t0 (t0 + (effSeconds seconds : ℚ)) ⟨0, 0, t0⟩ evs).2 ++
          [.totalLine (clientLoop p t0 (t0 + (effSeconds seconds : ℚ)) ⟨0, 0, t0⟩ evs).1.total
            (dtOf t0 t1)
            (((clientLoop p t0 (t0 + (effSeconds seconds : ℚ)) ⟨0, 0, t0⟩ evs).1.total : ℚ) /
              dtOf t0 t1)]) := by
  refine ⟨?_, ?_, ?_⟩
  · intro p t0 t1 evs
    constructor
    · have h := serverLoop_sum p t0 evs ⟨0, 0, t0⟩
      simpa using h
    · simp [runServer]
  · intro p t0 tend evs
    have h := clientLoop_sum p t0 tend evs ⟨0, 0, t0⟩
    simpa using h
  · intro p seconds buf_kb t0 t1 evs
    simp [runClient]

/-- Claim C4: in each variant an interval report is emitted in an iteration exactly
when the clock sampled after a successful transfer is at least 1 s past
interval_start_time; at that moment the interval counter resets to zero and
interval_start_time moves to the sampled time, so every emitted interval report
spans at least 1 s. -/
theorem C4_interval_cadence :
    (∀ (t0 : Time) (st : LoopState) (now : Time),
      (1 ≤ now - st.last →
        reportCheck t0 st now =
          (⟨st.total, 0, now⟩,
            [.interval (st.last - t0) (now - t0) st.interval
              ((st.interval : ℚ) / (now - st.last))])) ∧
      (now - st.last < 1 → reportCheck t0 st now = (st, []))) ∧
    (∀ (p : Platform) (t0 : Time) (st : LoopState) (ev : RecvEvent),
      (∃ a b k r, Report.interval a b k r ∈ (serverStep p t0 st ev).2.1) ↔
        (0 < ev.n ∧ 1 ≤ ev.tnow - st.last)) ∧
    (∀ (p : Platform) (t0 tend : Time) (st : LoopState) (ev : SendEvent),
      (∃ a b k r, Report.interval a b k r ∈ (clientStep p t0 tend st ev).2.1) ↔
        (ev.tcheck < tend ∧ 0 < ev.n ∧ 1 ≤ ev.tnow - st.last)) ∧
    (∀ (p : Platform) (t0 : Time) (st : LoopState) (evs : List RecvEvent) (a b : ℚ)
      (k : ℕ) (r : ℚ),
      Report.interval a b k r ∈ (serverLoop p t0 st evs).2 → 1 ≤ b - a) ∧
    (∀ (p : Platform) (t0 tend : Time) (st : LoopState) (evs : List SendEvent) (a b : ℚ)
      (k : ℕ) (r : ℚ),
      Report.interval a b k r ∈ (clientLoop p t0 tend st evs).2 → 1 ≤ b - a) := by
  refine ⟨?_, serverStep_interval_iff, clientStep_interval_iff, ?_, ?_⟩
  · intro t0 st now
    constructor
    · intro h
      simp [reportCheck, h]
    · intro h
      simp [reportCheck, not_le.mpr h]
  · intro p t0 st evs a b k r hm
    exact serverLoop_interval_mem p t0 evs st a b k r hm
  · intro p t0 tend st evs a b k r hm
    exact clientLoop_interval_mem p t0 tend evs st a b k r hm

/-- Closed instance of C4: the reporter fires at a 2 s sample and stays silent at a
0 s sample. -/
theorem C4_interval_cadence_witness :
    reportCheck 0 ⟨0, 0, 0⟩ 2 =
      (⟨0, 0, 2⟩, [.interval (0 - 0) (2 - 0) 0 (((0 : ℕ) : ℚ) / (2 - 0))]) ∧
    reportCheck 0 ⟨0, 0, 0⟩ 0 = (⟨0, 0, 0⟩, []) :=
  ⟨(C4_interval_cadence.1 0 ⟨0, 0, 0⟩ 2).1 (by simp),
   (C4_interval_cadence.1 0 ⟨0, 0, 0⟩ 0).2 (by simp)⟩

/-- Claim C7: a non-retryable transfer error ends the loop at that iteration with
the error reported and the counters as they were before the failed call, after
which a TOTAL line is still the last output and the run's return value is 0. -/
theorem C7_transfer_error :
    (∀ (p : Platform) (t0 : Time) (evs : List RecvEvent) (t1 : Time),
      (runServer p t0 evs t1).2 = 0 ∧
      (runServer p t0 evs t1).1.getLast? =
        some (.totalLine (serverLoop p t0 ⟨0, 0, t0⟩ evs).1.total (dtOf t0 t1)
          (((serverLoop p t0 ⟨0, 0, t0⟩ evs).1.total : ℚ) / dtOf t0 t1))) ∧
    (∀ (p : Platform) (t0 : Time) (st : LoopState) (ev : RecvEvent) (evs : List RecvEvent),
      ev.n < 0 → classifyErr p ev.e = .fatal →
      serverLoop p t0 st (ev :: evs) = (st, [.ioErr "recv".data])) ∧
    (∀ (p : Platform) (seconds buf_kb : ℤ) (t0 : Time) (evs : List SendEvent) (t1 : Time),
      (runClient p seconds buf_kb t0 evs t1).2.2 = 0) ∧
    (∀ (p : Platform) (t0 tend : Time) (st : LoopState) (ev : SendEvent)
      (evs : List SendEvent),
      ev.tcheck < tend → ev.n < 0 → classifyErr p ev.e = .fatal →
      clientLoop p t0 tend st (ev :: evs) = (st, [.ioErr "send".data])) := by
  refine ⟨?_, ?_, ?_, ?_⟩
  · intro p t0 evs t1
    exact ⟨rfl, by simp [runServer]⟩
  · intro p t0 st ev evs hn hc
    exact serverLoop_fatal p t0 st ev evs hn hc
  · intro p seconds buf_kb t0 evs t1
    rfl
  · intro p t0 tend st ev evs ht hn hc
    exact clientLoop_fatal p t0 tend st ev evs ht hn hc

/-- Closed instance of C7: a fatal receive error and a fatal send error each end
their loop immediately with the error reported and the state preserved. -/
theorem C7_transfer_error_witness :
    serverLoop .posix 0 ⟨0, 0, 0⟩ [⟨-1, .other, 0⟩] = (⟨0, 0, 0⟩, [.ioErr "recv".data]) ∧
    clientLoop .posix 0 5 ⟨0, 0, 0⟩ [⟨0, -1, .other, 0⟩] = (⟨0, 0, 0⟩, [.ioErr "send".data]) :=
  ⟨C7_transfer_error.2.1 .posix 0 ⟨0, 0, 0⟩ ⟨-1, .other, 0⟩ [] (by decide) rfl,
   C7_transfer_error.2.2.2 .posix 0 5 ⟨0, 0, 0⟩ ⟨0, -1, .other, 0⟩ [] (by simp) (by decide) rfl⟩

/-- Claim C10: no rate computation divides by zero: every interval report's rate
divides by the interval span, which is at least 1 s, and every TOTAL line's rate
divides by dt, which is always strictly positive. -/
theorem C10_no_div_by_zero :
    (∀ t0 t1 : Time, 0 < dtOf t0 t1) ∧
    (∀ (p : Platform) (t0 : Time) (st : LoopState) (evs : List RecvEvent) (a b : ℚ)
      (k : ℕ) (r : ℚ),
      Report.interval a b k r ∈ (serverLoop p t0 st evs).2 → 0 < b - a ∧ 1 ≤ b - a) ∧
    (∀ (p : Platform) (t0 tend : Time) (st : LoopState) (evs : List SendEvent) (a b : ℚ)
      (k : ℕ) (r : ℚ),
      Report.interval a b k r ∈ (clientLoop p t0 tend st evs).2 → 0 < b - a ∧ 1 ≤ b - a) ∧
    (∀ (p : Platform) (t0 : Time) (evs : List RecvEvent) (t1 : Time) (b : ℕ) (dt r : ℚ),
      Report.totalLine b dt r ∈ (runServer p t0 evs t1).1 →
        dt = dtOf t0 t1 ∧ 0 < dt ∧ r = (b : ℚ) / dt) ∧
    (∀ (p : Platform) (seconds buf_kb : ℤ) (t0 : Time) (evs : List SendEvent) (t1 : Time)
      (b : ℕ) (dt r : ℚ),
      Report.totalLine b dt r ∈ (runClient p seconds buf_kb t0 evs t1).2.1 →
        dt = dtOf t0 t1 ∧ 0 < dt ∧ r = (b : ℚ) / dt) := by
  refine ⟨dtOf_pos, ?_, ?_, ?_, ?_⟩
  · intro p t0 st evs a b k r hm
    have h := serverLoop_interval_mem p t0 evs st a b k r hm
    exact ⟨by linarith, h⟩
  · intro p t0 tend st evs a b k r hm
    have h := clientLoop_interval_mem p t0 tend evs st a b k r hm
    exact ⟨by linarith, h⟩
  · intro p t0 evs t1 b dt r hm
    have hm2 : Report.totalLine b dt r ∈
        (serverLoop p t0 ⟨0, 0, t0⟩ evs).2 ++
          [Report.totalLine (serverLoop p t0 ⟨0, 0, t0⟩ evs).1.total (dtOf t0 t1)
            (((serverLoop p t0 ⟨0, 0, t0⟩ evs).1.total : ℚ) / dtOf t0 t1)] := by
      simpa [runServer] using hm
    rcases List.mem_append.mp hm2 with h | h
    · exact absurd h (serverLoop_no_total p t0 evs ⟨0, 0, t0⟩ b dt r)
    · simp only [List.mem_singleton] at h
      injection h with hb hdt hr
      subst hb
      subst hdt
      subst hr
      exact ⟨rfl, dtOf_pos t0 t1, rfl⟩
  · intro p seconds buf_kb t0 evs t1 b dt r hm
    have hm2 : Report.totalLine b dt r ∈
        (clientLoop p t0 (t0 + (effSeconds seconds : ℚ)) ⟨0, 0, t0⟩ evs).2 ++
          [Report.totalLine
            (clientLoop p t0 (t0 + (effSeconds seconds : ℚ)) ⟨0, 0, t0⟩ evs).1.total
            (dtOf t0 t1)
            (((clientLoop p t0 (t0 + (effSeconds seconds : ℚ)) ⟨0, 0, t0⟩ evs).1.total : ℚ) /
              dtOf t0 t1)] := by
      simpa [runClient] using hm
    rcases List.mem_append.mp hm2 with h | h
    · exact absurd h
        (clientLoop_no_total p t0 (t0 + (effSeconds seconds : ℚ)) evs ⟨0, 0, t0⟩ b dt r)
    · simp only [List.mem_singleton] at h
      injection h with hb hdt hr
      subst hb
      subst hdt
      subst hr
      exact ⟨rfl, dtOf_pos t0 t1, rfl⟩

/-- Closed instance of C10: the TOTAL line of an empty server run divides by
dtOf 0 1, which the theorem shows equals the dt in the line and is positive. -/
theorem C10_no_div_by_zero_witness :
    dtOf 0 1 = dtOf 0 1 ∧ 0 < dtOf 0 1 ∧
      (((0 : ℕ) : ℚ) / dtOf 0 1) = ((0 : ℕ) : ℚ) / dtOf 0 1 :=
  C10_no_div_by_zero.2.2.2.1 .posix 0 [] 1 0 (dtOf 0 1) (((0 : ℕ) : ℚ) / dtOf 0 1)
    (by simp [runServer, serverLoop])

end Iperf
